import Mathlib

/-!
# Verification of the DIB clipboard encoder (`DibTest/main.cpp`)

Shallow embedding of the pixel-buffer type (`Image`), the three DIB stream
encoders (`makeOldDib`, `makeNewDib` short/long) and the clipboard staging
logic of `src/DibTest/main.cpp`, together with proofs of the specified
properties.

Byte streams are modelled as `List Nat`, each element one byte.  Multi-byte
header fields are serialized little-endian, matching the
`static_assert(std::endian::native == std::endian::little)` in the source and
the packed layouts of `BITMAPINFOHEADER` (40 bytes) and `BITMAPV5HEADER`
(124 bytes).
-/

set_option maxRecDepth 4000

namespace ClipboardDemo

/-- Little-endian serialization of a 32-bit field (values are truncated
mod 2^32, as assignment to a 32-bit struct field does). -/
def le32 (n : Nat) : List Nat :=
  [n % 256, n / 256 % 256, n / 65536 % 256, n / 16777216 % 256]

/-- Little-endian serialization of a 16-bit field. -/
def le16 (n : Nat) : List Nat :=
  [n % 256, n / 256 % 256]

/-- Read back a little-endian 32-bit value at byte offset `off` of a stream. -/
def readLE32 (s : List Nat) (off : Nat) : Nat :=
  s.getD off 0 + s.getD (off + 1) 0 * 256 + s.getD (off + 2) 0 * 65536 +
    s.getD (off + 3) 0 * 16777216

/-- Read back a little-endian 16-bit value at byte offset `off` of a stream. -/
def readLE16 (s : List Nat) (off : Nat) : Nat :=
  s.getD off 0 + s.getD (off + 1) 0 * 256

/-- `struct Rgba`: four byte channels, stored in memory in the order
blue, green, red, alpha; all default to `0xFF`. -/
structure Rgba where
  b : Nat := 0xFF
  g : Nat := 0xFF
  r : Nat := 0xFF
  a : Nat := 0xFF
deriving Repr, DecidableEq

instance : Inhabited Rgba := ⟨{}⟩

/-- `Rgba::A_MASK` -/
def Rgba.A_MASK : Nat := 0xFF000000
/-- `Rgba::R_MASK` -/
def Rgba.R_MASK : Nat := 0xFF0000
/-- `Rgba::G_MASK` -/
def Rgba.G_MASK : Nat := 0xFF00
/-- `Rgba::B_MASK` -/
def Rgba.B_MASK : Nat := 0xFF

/-- The in-memory bytes of one `Rgba` value: b, g, r, a at offsets 0..3.
Each `unsigned char` field holds its assigned value mod 256. -/
def Rgba.bytes (p : Rgba) : List Nat :=
  [p.b % 256, p.g % 256, p.r % 256, p.a % 256]

def WHITE : Rgba := { b := 0xFF, g := 0xFF, r := 0xFF }
def AQUA : Rgba := { b := 0xFF, g := 0xFF, r := 0 }
def MISTY : Rgba := { b := 0xE1, g := 0xE4, r := 0xFF }
def SEMI_BLACK : Rgba := { b := 0, g := 0, r := 0, a := 0x40 }
def SEMI_AQUA : Rgba := { b := 0xFF, g := 0xFF, r := 0, a := 0x40 }
def SEMI_PINK : Rgba := { b := 0xFF, g := 0, r := 0xFF, a := 0x40 }
def RED : Rgba := { b := 0, g := 0, r := 0xFF }
def GREEN : Rgba := { b := 0, g := 0xAA, r := 0 }
def BLUE : Rgba := { b := 0xFF, g := 0, r := 0 }
def YELLOW : Rgba := { b := 0, g := 0xD7, r := 0xFF }

/-- `class Image`: width, height, and the owned pixel vector `fData`
(row-major, row 0 first). -/
structure Image where
  fWidth : Nat := 0
  fHeight : Nat := 0
  fData : List Rgba := []
deriving Repr, DecidableEq

/-- `Image::width()` -/
def Image.width (im : Image) : Nat := im.fWidth
/-- `Image::height()` -/
def Image.height (im : Image) : Nat := im.fHeight
/-- `Image::area()` -/
def Image.area (im : Image) : Nat := im.fWidth * im.fHeight
/-- `Image::nBytes()` (`sizeof(Rgba) = 4`) -/
def Image.nBytes (im : Image) : Nat := im.area * 4

/-- `Image::resize(w, h, color)`: reallocate to `w*h` pixels, fill with
`color`. -/
def Image.resize (im : Image) (w h : Nat) (color : Rgba) : Image :=
  { im with fWidth := w, fHeight := h, fData := List.replicate (w * h) color }

/-- How an `Image` member access can fail: `std::out_of_range` thrown by the
explicit bounds check, or undefined behaviour of `std::vector::operator[]`
past the end of the owned storage. -/
inductive AccessError where
  | outOfRange
  | undefinedBehavior
deriving Repr, DecidableEq

deriving instance DecidableEq for Except

/-- `Image::at(y, x)` (read): throws `std::out_of_range` when
`y > fHeight || x > fWidth`, otherwise reads `fData[y * fWidth + x]`
(undefined behaviour when that index is past the end of the vector). -/
def Image.at' (im : Image) (y x : Nat) : Except AccessError Rgba :=
  if y > im.fHeight || x > im.fWidth then
    .error .outOfRange
  else
    match im.fData.get? (y * im.fWidth + x) with
    | some p => .ok p
    | none => .error .undefinedBehavior

/-- `Image::at(y, x)` (write): same bounds check, then assigns
`fData[y * fWidth + x]`. -/
def Image.setAt (im : Image) (y x : Nat) (c : Rgba) : Except AccessError Image :=
  if y > im.fHeight || x > im.fWidth then
    .error .outOfRange
  else if y * im.fWidth + x < im.fData.length then
    .ok { im with fData := im.fData.set (y * im.fWidth + x) c }
  else
    .error .undefinedBehavior

/-- `Image::scanLine(y)`: throws `std::out_of_range` when `y > fHeight`,
otherwise a view of `fWidth` pixels starting at `fData + y * fWidth`. -/
def Image.scanLine (im : Image) (y : Nat) : Except AccessError (List Rgba) :=
  if y > im.fHeight then
    .error .outOfRange
  else
    .ok ((im.fData.drop (y * im.fWidth)).take im.fWidth)

/-- In-place row fill, modelling `std::fill` over the span returned by
`scanLine(y)` (used by `makeImage` only at rows that are fully in range). -/
def Image.fillRow (im : Image) (y : Nat) (c : Rgba) : Image :=
  { im with
    fData := im.fData.take (y * im.fWidth) ++ List.replicate im.fWidth c ++
      im.fData.drop (y * im.fWidth + im.fWidth) }

/-- Unchecked pixel store `fData[y * fWidth + x] = c`, modelling what the
mutable `at` reference does once the bounds check has passed and the index is
inside the vector (used by `makeImage` only at in-range positions). -/
def Image.set (im : Image) (y x : Nat) (c : Rgba) : Image :=
  { im with fData := im.fData.set (y * im.fWidth + x) c }

/-- `writeBitPalette(os)`: the 12 bytes of the three 32-bit R, G, B masks. -/
def writeBitPalette : List Nat :=
  le32 Rgba.R_MASK ++ le32 Rgba.G_MASK ++ le32 Rgba.B_MASK

/-- The raw bytes of scanline `y`: each pixel as b, g, r, a. -/
def Image.rowBytes (im : Image) (y : Nat) : List Nat :=
  (((im.fData.drop (y * im.fWidth)).take im.fWidth).map Rgba.bytes).flatten

/-- `writeImageData(os, im)`: scanlines written for `y` from `height-1`
down to `0`. -/
def writeImageData (im : Image) : List Nat :=
  ((List.range im.fHeight).reverse.map im.rowBytes).flatten

/-- `BI_BITFIELDS` -/
def BI_BITFIELDS : Nat := 3
/-- `LCS_sRGB` = `'sRGB'` -/
def LCS_sRGB : Nat := 0x73524742
/-- `LCS_GM_IMAGES` -/
def LCS_GM_IMAGES : Nat := 4

/-- The 40 packed bytes of the `BITMAPINFOHEADER` built by `makeOldDib`:
`memset` to zero, then `biSize = 40`, width, height, `biPlanes = 1`,
`biBitCount = 32`, `biCompression = BI_BITFIELDS`, `biSizeImage = nBytes()`;
the remaining fields (pels-per-meter, colors used/important) stay zero. -/
def oldDibHeader (im : Image) : List Nat :=
  le32 40 ++ le32 im.width ++ le32 im.height ++ le16 1 ++ le16 32 ++
    le32 BI_BITFIELDS ++ le32 im.nBytes ++ le32 0 ++ le32 0 ++ le32 0 ++ le32 0

/-- `makeOldDib(im)`: legacy header, then the mask palette, then pixel data. -/
def makeOldDib (im : Image) : List Nat :=
  oldDibHeader im ++ writeBitPalette ++ writeImageData im

/-- `enum class LongDib` -/
inductive LongDib where
  | NO
  | YES
deriving Repr, DecidableEq

/-- The 124 packed bytes of the `BITMAPV5HEADER` built by `makeNewDib`:
`memset` to zero, then `bV5Size = 124`, width, height, `bV5Planes = 1`,
`bV5BitCount = 32`, `bV5ClrUsed = 0`, `bV5Compression = BI_BITFIELDS`,
`bV5SizeImage = nBytes()`, the four channel masks, `bV5CSType = LCS_sRGB`,
`bV5Intent = LCS_GM_IMAGES`; everything else (pels-per-meter, colors
used/important, endpoints, gammas, profile fields, reserved) stays zero.
Packed field order: Size, Width, Height, Planes, BitCount, Compression,
SizeImage, XPelsPerMeter, YPelsPerMeter, ClrUsed, ClrImportant, RedMask,
GreenMask, BlueMask, AlphaMask, CSType, Endpoints (36 bytes), GammaRed,
GammaGreen, GammaBlue, Intent, ProfileData, ProfileSize, Reserved. -/
def newDibHeader (im : Image) : List Nat :=
  le32 124 ++ le32 im.width ++ le32 im.height ++ le16 1 ++ le16 32 ++
    le32 BI_BITFIELDS ++ le32 im.nBytes ++ le32 0 ++ le32 0 ++ le32 0 ++
    le32 0 ++ le32 Rgba.R_MASK ++ le32 Rgba.G_MASK ++ le32 Rgba.B_MASK ++
    le32 Rgba.A_MASK ++ le32 LCS_sRGB ++ List.replicate 36 0 ++ le32 0 ++
    le32 0 ++ le32 0 ++ le32 LCS_GM_IMAGES ++ le32 0 ++ le32 0 ++ le32 0

/-- `makeNewDib(im, isLong)`: V5 header, the mask palette only when long,
then pixel data. -/
def makeNewDib (im : Image) (isLong : LongDib) : List Nat :=
  newDibHeader im ++
    (if isLong = LongDib.YES then writeBitPalette else []) ++
    writeImageData im

/-- `enum class Format` -/
inductive Format where
  | DIB_OLD
  | DIB_NEW_SHORT
  | DIB_NEW_LONG
  | BITMAP
deriving Repr, DecidableEq

/-- `CF_BITMAP` -/
def CF_BITMAP : Nat := 2
/-- `CF_DIB` -/
def CF_DIB : Nat := 8
/-- `CF_DIBV5` -/
def CF_DIBV5 : Nat := 17

/-- One observable system-clipboard call made inside an open session. -/
inductive ClipEvent where
  | empty
  | setData (nativeFormat : Nat) (data : List Nat)
  | setBitmap (w h : Nat) (pixels : List Rgba)
deriving Repr, DecidableEq

/-- `class Clipboard`: the `needClear` flag (initially `true`) plus the trace
of system calls issued so far in this open session, oldest first. -/
structure Clipboard where
  needClear : Bool := true
  events : List ClipEvent := []
deriving Repr, DecidableEq

/-- `Clipboard::clearIf()`: `EmptyClipboard` on the first call only. -/
def Clipboard.clearIf (c : Clipboard) : Clipboard :=
  if c.needClear then
    { needClear := false, events := c.events ++ [ClipEvent.empty] }
  else
    c

/-- `Clipboard::copyRaw(nativeFormat, data)`: `clearIf`, then
`SetClipboardData(nativeFormat, ...)` with a copy of `data`. -/
def Clipboard.copyRaw (c : Clipboard) (nativeFormat : Nat) (data : List Nat) :
    Clipboard :=
  let c := c.clearIf
  { c with events := c.events ++ [ClipEvent.setData nativeFormat data] }

/-- `Clipboard::copyBitmap(im)`: `clearIf`, then `SetClipboardData(CF_BITMAP)`
with a native bitmap built from the image's pixels. -/
def Clipboard.copyBitmap (c : Clipboard) (im : Image) : Clipboard :=
  let c := c.clearIf
  { c with
    events := c.events ++ [ClipEvent.setBitmap im.width im.height im.fData] }

/-- `Clipboard::copyImage(im, fmt)` -/
def Clipboard.copyImage (c : Clipboard) (im : Image) (fmt : Format) :
    Clipboard :=
  match fmt with
  | Format.DIB_OLD => c.copyRaw CF_DIB (makeOldDib im)
  | Format.DIB_NEW_LONG => c.copyRaw CF_DIBV5 (makeNewDib im LongDib.YES)
  | Format.DIB_NEW_SHORT => c.copyRaw CF_DIBV5 (makeNewDib im LongDib.NO)
  | Format.BITMAP => c.copyBitmap im

/-- `makeImage(bg)`: the 12×10 demo image — background `bg`, column 0 yellow
and column 11 blue for rows 1..8, row 0 red, row 9 green. -/
def makeImage (bg : Rgba) : Image :=
  let image := Image.resize {} 12 10 bg
  let x0 := 0
  let x9 := image.width - 1
  let y0 := 0
  let y9 := image.height - 1
  let image := (List.range' 1 (y9 - 1)).foldl
    (fun im y => (im.set y x0 YELLOW).set y x9 BLUE) image
  let image := image.fillRow y0 RED
  let image := image.fillRow y9 GREEN
  image

/-- One staging call made within an open clipboard session. -/
inductive StageOp where
  | raw (nativeFormat : Nat) (data : List Nat)
  | bitmap (im : Image)

/-- Run one staging call (`copyRaw` or `copyBitmap`) on the session state. -/
def stageStep (c : Clipboard) : StageOp → Clipboard
  | StageOp.raw f d => c.copyRaw f d
  | StageOp.bitmap im => c.copyBitmap im

/-- A whole session: a freshly constructed `Clipboard` (`needClear = true`,
no calls yet) followed by the given staging calls. -/
def runSession (ops : List StageOp) : Clipboard :=
  ops.foldl stageStep { needClear := true, events := [] }

/-- The single `SetClipboardData` event one staging call appends. -/
def stageEvent : StageOp → ClipEvent
  | StageOp.raw f d => ClipEvent.setData f d
  | StageOp.bitmap im => ClipEvent.setBitmap im.width im.height im.fData

/-! ## Length lemmas -/

theorem le32_length (n : Nat) : (le32 n).length = 4 := rfl

theorem le16_length (n : Nat) : (le16 n).length = 2 := rfl

theorem bytes_length (p : Rgba) : p.bytes.length = 4 := rfl

theorem writeBitPalette_length : writeBitPalette.length = 12 := rfl

theorem oldDibHeader_length (im : Image) : (oldDibHeader im).length = 40 := by
  simp [oldDibHeader, le32, le16]

theorem newDibHeader_length (im : Image) : (newDibHeader im).length = 124 := by
  simp [newDibHeader, le32, le16]

theorem flatten_map_bytes_length (l : List Rgba) :
    ((l.map Rgba.bytes).flatten).length = 4 * l.length := by
  induction l with
  | nil => rfl
  | cons p l ih =>
    simp only [List.map_cons, List.flatten_cons, List.length_append,
      bytes_length, ih, List.length_cons]
    omega

/-- The pixel row read by `scanLine(y)` has exactly `fWidth` entries whenever
the storage invariant holds and `y` is a valid row index. -/
theorem row_length (im : Image)
    (hinv : im.fData.length = im.fWidth * im.fHeight)
    {y : Nat} (hy : y < im.fHeight) :
    ((im.fData.drop (y * im.fWidth)).take im.fWidth).length = im.fWidth := by
  rw [List.length_take, List.length_drop, hinv]
  have h1 : im.fWidth * im.fHeight - y * im.fWidth
      = (im.fHeight - y) * im.fWidth := by
    rw [Nat.mul_comm im.fWidth im.fHeight, ← Nat.sub_mul]
  rw [h1]
  have h2 : 1 * im.fWidth ≤ (im.fHeight - y) * im.fWidth :=
    Nat.mul_le_mul_right _ (by omega)
  rw [Nat.one_mul] at h2
  exact Nat.min_eq_left h2

theorem rowBytes_length (im : Image)
    (hinv : im.fData.length = im.fWidth * im.fHeight)
    {y : Nat} (hy : y < im.fHeight) :
    (im.rowBytes y).length = 4 * im.fWidth := by
  unfold Image.rowBytes
  rw [flatten_map_bytes_length, row_length im hinv hy]

theorem writeImageData_length (im : Image)
    (hinv : im.fData.length = im.fWidth * im.fHeight) :
    (writeImageData im).length = im.nBytes := by
  have key : ∀ n, n ≤ im.fHeight →
      (((List.range n).reverse.map im.rowBytes).flatten).length
        = n * (4 * im.fWidth) := by
    intro n
    induction n with
    | zero => intro _; simp
    | succ n ih =>
      intro h
      rw [List.range_succ, List.reverse_append]
      simp only [List.reverse_cons, List.reverse_nil, List.nil_append,
        List.cons_append, List.map_cons, List.flatten_cons, List.length_append]
      rw [rowBytes_length im hinv (by omega), ih (by omega), Nat.succ_mul]
      ring
  unfold writeImageData Image.nBytes Image.area
  rw [key im.fHeight (Nat.le_refl _)]
  ring

/-! ## Claim theorems -/

/-- C7: after `resize(w, h, c)` the buffer holds exactly `w*h` pixels, every
one equal to `c`, with `width() = w`, `height() = h`, `pixelCount() = w*h`
(`area`) and `byteSize() = w*h*4` (`nBytes`); zero-area dimensions are legal
and yield an empty buffer. -/
theorem C7_resize (im : Image) (w h : Nat) (c : Rgba) :
    (im.resize w h c).fData = List.replicate (w * h) c ∧
    (im.resize w h c).width = w ∧
    (im.resize w h c).height = h ∧
    (im.resize w h c).area = w * h ∧
    (im.resize w h c).nBytes = w * h * 4 ∧
    (im.resize w h c).fData.length = w * h ∧
    (∀ p ∈ (im.resize w h c).fData, p = c) ∧
    (im.resize w 0 c).fData = [] ∧ (im.resize 0 h c).fData = [] := by
  refine ⟨rfl, rfl, rfl, rfl, rfl, by simp [Image.resize], ?_, ?_, ?_⟩
  · intro p hp
    simp only [Image.resize] at hp
    exact List.eq_of_mem_replicate hp
  · simp [Image.resize]
  · simp [Image.resize]

/-- C1: every encoded stream is header, optional 12-byte mask palette
(present for `LegacyDib` and `V5LongDib`, absent for `V5ShortDib`), then
pixel data, for a total length of `header_size + (12 or 0) + byteSize()`
with a 40-byte legacy header and a 124-byte V5 header; the 12×10 demo
buffer encoded as `V5LongDib` yields exactly `124 + 12 + 480` bytes. -/
theorem C1_stream_lengths (im : Image)
    (hinv : im.fData.length = im.fWidth * im.fHeight) :
    (makeOldDib im).length = 40 + 12 + im.nBytes ∧
    (makeNewDib im LongDib.YES).length = 124 + 12 + im.nBytes ∧
    (makeNewDib im LongDib.NO).length = 124 + 0 + im.nBytes ∧
    (makeNewDib (makeImage WHITE) LongDib.YES).length = 124 + 12 + 480 := by
  refine ⟨?_, ?_, ?_, by decide⟩ <;>
    (simp [makeOldDib, makeNewDib, oldDibHeader_length, newDibHeader_length,
      writeBitPalette_length, writeImageData_length im hinv]; try omega)

theorem C1_stream_lengths_witness :
    ((makeImage WHITE).fData.length
        = (makeImage WHITE).fWidth * (makeImage WHITE).fHeight) ∧
    ((makeOldDib (makeImage WHITE)).length = 40 + 12 + (makeImage WHITE).nBytes ∧
     (makeNewDib (makeImage WHITE) LongDib.YES).length
        = 124 + 12 + (makeImage WHITE).nBytes ∧
     (makeNewDib (makeImage WHITE) LongDib.NO).length
        = 124 + 0 + (makeImage WHITE).nBytes ∧
     (makeNewDib (makeImage WHITE) LongDib.YES).length = 124 + 12 + 480) :=
  ⟨by decide, C1_stream_lengths (makeImage WHITE) (by decide)⟩

/-- Indexing into the concatenation of equal-length chunks: the `k` bytes at
offset `k*i` of the flattened list are exactly chunk `i`. -/
theorem flatten_drop_take (k : Nat) :
    ∀ (L : List (List Nat)) (i : Nat), (∀ l ∈ L, l.length = k) →
      ∀ hi : i < L.length, (L.flatten.drop (k * i)).take k = L[i] := by
  intro L
  induction L with
  | nil => intro i _ hi; simp at hi
  | cons a L ih =>
    intro i hall hi
    have ha : a.length = k := hall a (by simp)
    cases i with
    | zero =>
      simp only [Nat.mul_zero, List.drop_zero, List.flatten_cons,
        List.getElem_cons_zero]
      rw [← ha, List.take_left]
    | succ i =>
      rw [List.flatten_cons, List.getElem_cons_succ,
        show k * (i + 1) = a.length + k * i by rw [ha]; ring,
        List.drop_append]
      exact ih i (fun l hl => hall l (by simp [hl])) (by simpa using hi)

/-- In the bottom-up scanline list, entry `i` is the bytes of row
`height - 1 - i`. -/
theorem rows_getElem (im : Image) {i : Nat}
    (hi : i < ((List.range im.fHeight).reverse.map im.rowBytes).length) :
    ((List.range im.fHeight).reverse.map im.rowBytes)[i] =
      im.rowBytes (im.fHeight - 1 - i) := by
  rw [List.getElem_map, List.getElem_reverse, List.getElem_range]
  simp

/-- The `4 * width` bytes at offset `4 * width * (height - 1 - y)` of the
pixel-data section are exactly the bytes of scanline `y`. -/
theorem writeImageData_row (im : Image)
    (hinv : im.fData.length = im.fWidth * im.fHeight)
    {y : Nat} (hy : y < im.fHeight) :
    ((writeImageData im).drop
        (4 * im.fWidth * (im.fHeight - 1 - y))).take (4 * im.fWidth)
      = im.rowBytes y := by
  unfold writeImageData
  have hi : im.fHeight - 1 - y
      < ((List.range im.fHeight).reverse.map im.rowBytes).length := by
    simp; omega
  have hall : ∀ l ∈ (List.range im.fHeight).reverse.map im.rowBytes,
      l.length = 4 * im.fWidth := by
    intro l hl
    obtain ⟨z, hz, rfl⟩ := List.mem_map.mp hl
    have hz' : z < im.fHeight := by
      have := List.mem_reverse.mp hz
      exact List.mem_range.mp this
    exact rowBytes_length im hinv hz'
  rw [flatten_drop_take (4 * im.fWidth) _ _ hall hi, rows_getElem im hi]
  congr 1
  omega

/-- C2: the pixel-data section (at offset 52 in a legacy stream, 124 in a
short V5 stream, 136 in a long V5 stream) writes rows from `height-1` down
to `0`, left to right, each pixel as 4 bytes b, g, r, a: the 4-byte group at
pixel index `(height-1-y)*width + x` is pixel `(y, x)`; in particular the
first group is row `height-1`'s first pixel and the last group is row `0`'s
last pixel. -/
theorem C2_bottom_up (im : Image)
    (hinv : im.fData.length = im.fWidth * im.fHeight) :
    (∀ y x, y < im.fHeight → x < im.fWidth →
      ((writeImageData im).drop
          (4 * ((im.fHeight - 1 - y) * im.fWidth + x))).take 4
        = Rgba.bytes (im.fData.getD (y * im.fWidth + x) default)) ∧
    ((makeOldDib im).drop 52 = writeImageData im) ∧
    ((makeNewDib im LongDib.NO).drop 124 = writeImageData im) ∧
    ((makeNewDib im LongDib.YES).drop 136 = writeImageData im) ∧
    (0 < im.fHeight → 0 < im.fWidth →
      ((writeImageData im).take 4
          = Rgba.bytes (im.fData.getD ((im.fHeight - 1) * im.fWidth) default)) ∧
      ((writeImageData im).drop ((writeImageData im).length - 4)
          = Rgba.bytes (im.fData.getD (im.fWidth - 1) default))) := by
  have pos : ∀ y x, y < im.fHeight → x < im.fWidth →
      ((writeImageData im).drop
          (4 * ((im.fHeight - 1 - y) * im.fWidth + x))).take 4
        = Rgba.bytes (im.fData.getD (y * im.fWidth + x) default) := by
    intro y x hy hx
    have hrow := writeImageData_row im hinv hy
    have hrowlist : ((im.fData.drop (y * im.fWidth)).take im.fWidth).length
        = im.fWidth := row_length im hinv hy
    have inner := flatten_drop_take 4
      (((im.fData.drop (y * im.fWidth)).take im.fWidth).map Rgba.bytes) x
      (by
        intro l hl
        obtain ⟨p, _, rfl⟩ := List.mem_map.mp hl
        exact bytes_length p)
      (by rw [List.length_map, hrowlist]; exact hx)
    rw [List.getElem_map] at inner
    have hidx : y * im.fWidth + x < im.fData.length := by
      rw [hinv, Nat.mul_comm im.fWidth im.fHeight]
      calc y * im.fWidth + x < (y + 1) * im.fWidth := by
            rw [Nat.succ_mul]; omega
        _ ≤ im.fHeight * im.fWidth := Nat.mul_le_mul_right _ hy
    have hpix : ∀ hx2 : x < ((im.fData.drop (y * im.fWidth)).take im.fWidth).length,
        ((im.fData.drop (y * im.fWidth)).take im.fWidth)[x]
          = im.fData.getD (y * im.fWidth + x) default := by
      intro hx2
      rw [List.getElem_take, List.getElem_drop,
        List.getD_eq_getElem im.fData default (by omega)]
    rw [hpix (by omega)] at inner
    rw [show 4 * ((im.fHeight - 1 - y) * im.fWidth + x)
        = 4 * im.fWidth * (im.fHeight - 1 - y) + 4 * x from by ring,
      ← List.drop_drop]
    have e1 : (((writeImageData im).drop
          (4 * im.fWidth * (im.fHeight - 1 - y))).take (4 * im.fWidth)).drop
            (4 * x)
        = (((writeImageData im).drop
          (4 * im.fWidth * (im.fHeight - 1 - y))).drop (4 * x)).take
            (4 * im.fWidth - 4 * x) := List.drop_take ..
    have e2 := congrArg (List.take 4) e1
    rw [List.take_take, Nat.min_eq_left (by omega), hrow] at e2
    rw [← e2]
    exact inner
  refine ⟨pos, ?_, ?_, ?_, ?_⟩
  · unfold makeOldDib
    exact List.drop_left' (by
      rw [List.length_append, oldDibHeader_length, writeBitPalette_length])
  · have hNO : makeNewDib im LongDib.NO
        = newDibHeader im ++ writeImageData im := by
      simp [makeNewDib]
    rw [hNO]
    exact List.drop_left' (newDibHeader_length im)
  · have hYES : makeNewDib im LongDib.YES
        = (newDibHeader im ++ writeBitPalette) ++ writeImageData im := by
      simp [makeNewDib]
    rw [hYES]
    exact List.drop_left' (by
      rw [List.length_append, newDibHeader_length, writeBitPalette_length])
  · intro hh hw
    constructor
    · have p := pos (im.fHeight - 1) 0 (by omega) hw
      simpa using p
    · have p := pos 0 (im.fWidth - 1) hh (by omega)
      simp only [Nat.sub_zero, Nat.zero_mul, Nat.zero_add] at p
      have hlen := writeImageData_length im hinv
      have hw2 : im.fWidth * 1 ≤ im.fWidth * im.fHeight :=
        Nat.mul_le_mul_left _ hh
      rw [Nat.mul_one] at hw2
      have key : (im.fHeight - 1) * im.fWidth + (im.fWidth - 1)
          = im.fWidth * im.fHeight - 1 := by
        rw [Nat.sub_mul, Nat.one_mul, Nat.mul_comm im.fHeight im.fWidth]
        omega
      have off_eq : (writeImageData im).length - 4
          = 4 * ((im.fHeight - 1) * im.fWidth + (im.fWidth - 1)) := by
        rw [hlen, key]
        unfold Image.nBytes Image.area
        omega
      have etake : (writeImageData im).drop ((writeImageData im).length - 4)
          = ((writeImageData im).drop
              ((writeImageData im).length - 4)).take 4 :=
        (List.take_of_length_le (by rw [List.length_drop]; omega)).symm
      rw [etake, off_eq]
      exact p

theorem C2_bottom_up_witness :
    ((makeImage SEMI_PINK).fData.length
        = (makeImage SEMI_PINK).fWidth * (makeImage SEMI_PINK).fHeight) ∧
    ((∀ y x, y < (makeImage SEMI_PINK).fHeight →
        x < (makeImage SEMI_PINK).fWidth →
      ((writeImageData (makeImage SEMI_PINK)).drop
          (4 * (((makeImage SEMI_PINK).fHeight - 1 - y)
              * (makeImage SEMI_PINK).fWidth + x))).take 4
        = Rgba.bytes ((makeImage SEMI_PINK).fData.getD
            (y * (makeImage SEMI_PINK).fWidth + x) default)) ∧
    ((makeOldDib (makeImage SEMI_PINK)).drop 52
        = writeImageData (makeImage SEMI_PINK)) ∧
    ((makeNewDib (makeImage SEMI_PINK) LongDib.NO).drop 124
        = writeImageData (makeImage SEMI_PINK)) ∧
    ((makeNewDib (makeImage SEMI_PINK) LongDib.YES).drop 136
        = writeImageData (makeImage SEMI_PINK)) ∧
    (0 < (makeImage SEMI_PINK).fHeight → 0 < (makeImage SEMI_PINK).fWidth →
      ((writeImageData (makeImage SEMI_PINK)).take 4
          = Rgba.bytes ((makeImage SEMI_PINK).fData.getD
              (((makeImage SEMI_PINK).fHeight - 1)
                * (makeImage SEMI_PINK).fWidth) default)) ∧
      ((writeImageData (makeImage SEMI_PINK)).drop
          ((writeImageData (makeImage SEMI_PINK)).length - 4)
          = Rgba.bytes ((makeImage SEMI_PINK).fData.getD
              ((makeImage SEMI_PINK).fWidth - 1) default)))) :=
  ⟨by decide, C2_bottom_up (makeImage SEMI_PINK) (by decide)⟩

/-- Reading a 32-bit field that sits right after a prefix of length `off`
recovers the serialized value mod 2^32. -/
theorem readLE32_append (pre : List Nat) (n : Nat) (rest : List Nat)
    (off : Nat) (hoff : pre.length = off) :
    readLE32 (pre ++ (le32 n ++ rest)) off = n % 4294967296 := by
  subst hoff
  have e : ∀ i, i < 4 →
      (pre ++ (le32 n ++ rest)).getD (pre.length + i) 0 = (le32 n).getD i 0 := by
    intro i hi
    rw [List.getD_append_right _ _ _ _ (by omega), Nat.add_sub_cancel_left,
      List.getD_append _ _ _ _ (by rw [le32_length]; omega)]
  have h0 := e 0 (by omega)
  have h1 := e 1 (by omega)
  have h2 := e 2 (by omega)
  have h3 := e 3 (by omega)
  rw [Nat.add_zero] at h0
  unfold readLE32
  rw [h0, h1, h2, h3]
  show n % 256 + n / 256 % 256 * 256 + n / 65536 % 256 * 65536 +
    n / 16777216 % 256 * 16777216 = n % 4294967296
  omega

/-- Reading a 16-bit field that sits right after a prefix of length `off`
recovers the serialized value mod 2^16. -/
theorem readLE16_append (pre : List Nat) (n : Nat) (rest : List Nat)
    (off : Nat) (hoff : pre.length = off) :
    readLE16 (pre ++ (le16 n ++ rest)) off = n % 65536 := by
  subst hoff
  have e : ∀ i, i < 2 →
      (pre ++ (le16 n ++ rest)).getD (pre.length + i) 0 = (le16 n).getD i 0 := by
    intro i hi
    rw [List.getD_append_right _ _ _ _ (by omega), Nat.add_sub_cancel_left,
      List.getD_append _ _ _ _ (by rw [le16_length]; omega)]
  have h0 := e 0 (by omega)
  have h1 := e 1 (by omega)
  rw [Nat.add_zero] at h0
  unfold readLE16
  rw [h0, h1]
  show n % 256 + n / 256 % 256 * 256 = n % 65536
  omega

/-- C3 counterexample: the V5 short stream's header does NOT embed an alpha
mask equal to zero — the alpha-mask field (byte offset 52) of the short
stream for the demo image is `0xFF000000`, not `0`. -/
theorem C3_counterexample :
    ¬ (readLE32 (makeNewDib (makeImage WHITE) LongDib.NO) 52 = 0) := by decide

/-- C3 (amended): for every pixel buffer and BOTH V5 variants, the header
embeds the red, green and blue channel masks and the alpha mask
`0xFF000000` (the source sets `bV5AlphaMask` unconditionally, so the short
variant's alpha-mask field is not zero). -/
theorem C3_v5_masks (im : Image) (isLong : LongDib) :
    readLE32 (makeNewDib im isLong) 40 = Rgba.R_MASK ∧
    readLE32 (makeNewDib im isLong) 44 = Rgba.G_MASK ∧
    readLE32 (makeNewDib im isLong) 48 = Rgba.B_MASK ∧
    readLE32 (makeNewDib im isLong) 52 = Rgba.A_MASK := by
  have tailEq : makeNewDib im isLong
      = newDibHeader im
        ++ ((if isLong = LongDib.YES then writeBitPalette else [])
          ++ writeImageData im) := by
    simp [makeNewDib]
  refine ⟨?_, ?_, ?_, ?_⟩
  · rw [show makeNewDib im isLong
        = (le32 124 ++ le32 im.width ++ le32 im.height ++ le16 1 ++ le16 32 ++
            le32 BI_BITFIELDS ++ le32 im.nBytes ++ le32 0 ++ le32 0 ++
            le32 0 ++ le32 0)
          ++ (le32 Rgba.R_MASK ++
            (le32 Rgba.G_MASK ++ le32 Rgba.B_MASK ++ le32 Rgba.A_MASK ++
              le32 LCS_sRGB ++ List.replicate 36 0 ++ le32 0 ++ le32 0 ++
              le32 0 ++ le32 LCS_GM_IMAGES ++ le32 0 ++ le32 0 ++ le32 0 ++
              ((if isLong = LongDib.YES then writeBitPalette else [])
                ++ writeImageData im)))
        from by rw [tailEq]; simp [newDibHeader, List.append_assoc],
      readLE32_append _ _ _ 40 (by
        simp [le32_length, le16_length, List.length_append])]
    decide
  · rw [show makeNewDib im isLong
        = (le32 124 ++ le32 im.width ++ le32 im.height ++ le16 1 ++ le16 32 ++
            le32 BI_BITFIELDS ++ le32 im.nBytes ++ le32 0 ++ le32 0 ++
            le32 0 ++ le32 0 ++ le32 Rgba.R_MASK)
          ++ (le32 Rgba.G_MASK ++
            (le32 Rgba.B_MASK ++ le32 Rgba.A_MASK ++
              le32 LCS_sRGB ++ List.replicate 36 0 ++ le32 0 ++ le32 0 ++
              le32 0 ++ le32 LCS_GM_IMAGES ++ le32 0 ++ le32 0 ++ le32 0 ++
              ((if isLong = LongDib.YES then writeBitPalette else [])
                ++ writeImageData im)))
        from by rw [tailEq]; simp [newDibHeader, List.append_assoc],
      readLE32_append _ _ _ 44 (by
        simp [le32_length, le16_length, List.length_append])]
    decide
  · rw [show makeNewDib im isLong
        = (le32 124 ++ le32 im.width ++ le32 im.height ++ le16 1 ++ le16 32 ++
            le32 BI_BITFIELDS ++ le32 im.nBytes ++ le32 0 ++ le32 0 ++
            le32 0 ++ le32 0 ++ le32 Rgba.R_MASK ++ le32 Rgba.G_MASK)
          ++ (le32 Rgba.B_MASK ++
            (le32 Rgba.A_MASK ++
              le32 LCS_sRGB ++ List.replicate 36 0 ++ le32 0 ++ le32 0 ++
              le32 0 ++ le32 LCS_GM_IMAGES ++ le32 0 ++ le32 0 ++ le32 0 ++
              ((if isLong = LongDib.YES then writeBitPalette else [])
                ++ writeImageData im)))
        from by rw [tailEq]; simp [newDibHeader, List.append_assoc],
      readLE32_append _ _ _ 48 (by
        simp [le32_length, le16_length, List.length_append])]
    decide
  · rw [show makeNewDib im isLong
        = (le32 124 ++ le32 im.width ++ le32 im.height ++ le16 1 ++ le16 32 ++
            le32 BI_BITFIELDS ++ le32 im.nBytes ++ le32 0 ++ le32 0 ++
            le32 0 ++ le32 0 ++ le32 Rgba.R_MASK ++ le32 Rgba.G_MASK ++
            le32 Rgba.B_MASK)
          ++ (le32 Rgba.A_MASK ++
            (le32 LCS_sRGB ++ List.replicate 36 0 ++ le32 0 ++ le32 0 ++
              le32 0 ++ le32 LCS_GM_IMAGES ++ le32 0 ++ le32 0 ++ le32 0 ++
              ((if isLong = LongDib.YES then writeBitPalette else [])
                ++ writeImageData im)))
        from by rw [tailEq]; simp [newDibHeader, List.append_assoc],
      readLE32_append _ _ _ 52 (by
        simp [le32_length, le16_length, List.length_append])]
    decide

/-- C4 counterexample: the colors-used field (byte offset 32) of the V5 long
stream for the demo image is not 3. -/
theorem C4_counterexample :
    ¬ (readLE32 (makeNewDib (makeImage WHITE) LongDib.YES) 32 = 3) := by decide

/-- C4 (amended): the colors-used count field of the V5 header is 0 in BOTH
the `V5ShortDib` and the `V5LongDib` stream (the source sets
`bV5ClrUsed = 0` unconditionally, even when the 3-entry palette is
appended). -/
theorem C4_colors_used (im : Image) (isLong : LongDib) :
    readLE32 (makeNewDib im isLong) 32 = 0 := by
  rw [show makeNewDib im isLong
      = (le32 124 ++ le32 im.width ++ le32 im.height ++ le16 1 ++ le16 32 ++
          le32 BI_BITFIELDS ++ le32 im.nBytes ++ le32 0 ++ le32 0)
        ++ (le32 0 ++
          (le32 0 ++ le32 Rgba.R_MASK ++ le32 Rgba.G_MASK ++
            le32 Rgba.B_MASK ++ le32 Rgba.A_MASK ++
            le32 LCS_sRGB ++ List.replicate 36 0 ++ le32 0 ++ le32 0 ++
            le32 0 ++ le32 LCS_GM_IMAGES ++ le32 0 ++ le32 0 ++ le32 0 ++
            ((if isLong = LongDib.YES then writeBitPalette else [])
              ++ writeImageData im)))
      from by simp [makeNewDib, newDibHeader, List.append_assoc],
    readLE32_append _ _ _ 32 (by
      simp [le32_length, le16_length, List.length_append])]

/-- Under the storage invariant, a strictly in-range `(y, x)` addresses a
cell inside the owned pixel vector. -/
theorem index_lt (im : Image)
    (hinv : im.fData.length = im.fWidth * im.fHeight)
    {y x : Nat} (hy : y < im.fHeight) (hx : x < im.fWidth) :
    y * im.fWidth + x < im.fData.length := by
  rw [hinv, Nat.mul_comm im.fWidth im.fHeight]
  calc y * im.fWidth + x < (y + 1) * im.fWidth := by
        rw [Nat.succ_mul]; omega
    _ ≤ im.fHeight * im.fWidth := Nat.mul_le_mul_right _ hy

/-- C5 counterexample: on a 3-wide, 2-high buffer, `at(2, 0)` has
`row = height`, so the claim says it must fail with OutOfRange — but the
source's `>` check lets it through (the access is then past the end of the
vector, not an OutOfRange failure). -/
theorem C5_counterexample :
    ¬ ((Image.resize {} 3 2 WHITE).at' 2 0
        = Except.error AccessError.outOfRange) := by decide

/-- C5 (amended): `at(row, col)` fails with OutOfRange exactly on the
source's permissive condition `row > height` or `col > width` (not already
at `row = height` / `col = width`); for every strictly in-range pair,
writing a pixel via `at` and reading at the same position returns the
written value. -/
theorem C5_at_bounds (im : Image)
    (hinv : im.fData.length = im.fWidth * im.fHeight) :
    (∀ y x c, (im.fHeight < y ∨ im.fWidth < x) →
      im.at' y x = Except.error AccessError.outOfRange ∧
      im.setAt y x c = Except.error AccessError.outOfRange) ∧
    (∀ y x c, y < im.fHeight → x < im.fWidth →
      (im.setAt y x c).bind (fun im2 => im2.at' y x) = Except.ok c) := by
  constructor
  · intro y x c h
    have hc : (decide (y > im.fHeight) || decide (x > im.fWidth)) = true := by
      rcases h with h | h <;> simp [h]
    constructor <;> simp [Image.at', Image.setAt, hc]
  · intro y x c hy hx
    have hc : (decide (y > im.fHeight) || decide (x > im.fWidth)) = false := by
      simp
      omega
    have hidx := index_lt im hinv hy hx
    have hset : im.setAt y x c
        = Except.ok { im with fData := im.fData.set (y * im.fWidth + x) c } := by
      simp [Image.setAt, hc, hidx]
    rw [hset]
    show Image.at' { im with fData := im.fData.set (y * im.fWidth + x) c } y x
      = Except.ok c
    have hget : (im.fData.set (y * im.fWidth + x) c)[y * im.fWidth + x]?
        = some c := by
      rw [List.getElem?_set_self]
      simp [hidx]
    simp [Image.at', hc, hget]

theorem C5_at_bounds_witness :
    ((makeImage SEMI_PINK).fData.length
        = (makeImage SEMI_PINK).fWidth * (makeImage SEMI_PINK).fHeight) ∧
    ((∀ y x c, ((makeImage SEMI_PINK).fHeight < y ∨
        (makeImage SEMI_PINK).fWidth < x) →
      (makeImage SEMI_PINK).at' y x = Except.error AccessError.outOfRange ∧
      (makeImage SEMI_PINK).setAt y x c
        = Except.error AccessError.outOfRange) ∧
    (∀ y x c, y < (makeImage SEMI_PINK).fHeight →
        x < (makeImage SEMI_PINK).fWidth →
      ((makeImage SEMI_PINK).setAt y x c).bind (fun im2 => im2.at' y x)
        = Except.ok c)) :=
  ⟨by decide, C5_at_bounds (makeImage SEMI_PINK) (by decide)⟩

/-- C6: the bounds checks compare with `>` rather than `>=`: `at(height, x)`
for `x ≤ width` and `scanLine(height)` do not raise OutOfRange although the
index is one past the valid range; the element access then addresses index
`height*width + x`, at or past the end of the owned pixel sequence; only
under the strict precondition `row < height` and `col < width` is the
accessed index guaranteed in bounds. -/
theorem C6_permissive_bounds (im : Image)
    (hinv : im.fData.length = im.fWidth * im.fHeight) :
    (∀ x, x ≤ im.fWidth →
      im.at' im.fHeight x ≠ Except.error AccessError.outOfRange) ∧
    (im.scanLine im.fHeight ≠ Except.error AccessError.outOfRange) ∧
    (∀ x, im.fData.length ≤ im.fHeight * im.fWidth + x) ∧
    (∀ y x, y < im.fHeight → x < im.fWidth →
      y * im.fWidth + x < im.fData.length) := by
  refine ⟨?_, ?_, ?_, fun y x hy hx => index_lt im hinv hy hx⟩
  · intro x hx
    have hc : (decide (im.fHeight > im.fHeight) || decide (x > im.fWidth))
        = false := by
      simp
      omega
    simp only [Image.at', hc]
    cases hg : im.fData.get? (im.fHeight * im.fWidth + x) <;> simp
  · simp [Image.scanLine]
  · intro x
    rw [hinv, Nat.mul_comm im.fWidth im.fHeight]
    omega

theorem C6_permissive_bounds_witness :
    ((makeImage SEMI_PINK).fData.length
        = (makeImage SEMI_PINK).fWidth * (makeImage SEMI_PINK).fHeight) ∧
    ((∀ x, x ≤ (makeImage SEMI_PINK).fWidth →
      (makeImage SEMI_PINK).at' (makeImage SEMI_PINK).fHeight x
        ≠ Except.error AccessError.outOfRange) ∧
    ((makeImage SEMI_PINK).scanLine (makeImage SEMI_PINK).fHeight
        ≠ Except.error AccessError.outOfRange) ∧
    (∀ x, (makeImage SEMI_PINK).fData.length
        ≤ (makeImage SEMI_PINK).fHeight * (makeImage SEMI_PINK).fWidth + x) ∧
    (∀ y x, y < (makeImage SEMI_PINK).fHeight →
        x < (makeImage SEMI_PINK).fWidth →
      y * (makeImage SEMI_PINK).fWidth + x
        < (makeImage SEMI_PINK).fData.length)) :=
  ⟨by decide, C6_permissive_bounds (makeImage SEMI_PINK) (by decide)⟩

/-- The header fields shared by the legacy and the V5 layout (width, height,
planes, bit count, compression, image byte size) read back correctly from
any stream that starts with the common 24-byte field sequence. -/
theorem commonFields_read (sz : Nat) (im : Image) (tail : List Nat)
    (s : List Nat)
    (hs : s = le32 sz ++ (le32 im.width ++ (le32 im.height ++ (le16 1 ++
      (le16 32 ++ (le32 BI_BITFIELDS ++ (le32 im.nBytes ++ tail)))))))
    (hw : im.fWidth < 4294967296) (hh : im.fHeight < 4294967296)
    (hb : im.nBytes < 4294967296) :
    readLE32 s 4 = im.width ∧ readLE32 s 8 = im.height ∧
    readLE16 s 12 = 1 ∧ readLE16 s 14 = 32 ∧
    readLE32 s 16 = BI_BITFIELDS ∧ readLE32 s 20 = im.nBytes := by
  subst hs
  refine ⟨?_, ?_, ?_, ?_, ?_, ?_⟩
  · exact (readLE32_append (le32 sz) im.width _ 4 (le32_length sz)).trans
      (Nat.mod_eq_of_lt hw)
  · rw [show le32 sz ++ (le32 im.width ++ (le32 im.height ++ (le16 1 ++
          (le16 32 ++ (le32 BI_BITFIELDS ++ (le32 im.nBytes ++ tail))))))
        = (le32 sz ++ le32 im.width) ++ (le32 im.height ++ (le16 1 ++
          (le16 32 ++ (le32 BI_BITFIELDS ++ (le32 im.nBytes ++ tail)))))
      from by simp [List.append_assoc],
      readLE32_append _ _ _ 8 (by simp [le32_length, List.length_append])]
    exact Nat.mod_eq_of_lt hh
  · rw [show le32 sz ++ (le32 im.width ++ (le32 im.height ++ (le16 1 ++
          (le16 32 ++ (le32 BI_BITFIELDS ++ (le32 im.nBytes ++ tail))))))
        = (le32 sz ++ le32 im.width ++ le32 im.height) ++ (le16 1 ++
          (le16 32 ++ (le32 BI_BITFIELDS ++ (le32 im.nBytes ++ tail))))
      from by simp [List.append_assoc],
      readLE16_append _ _ _ 12 (by simp [le32_length, List.length_append])]
  · rw [show le32 sz ++ (le32 im.width ++ (le32 im.height ++ (le16 1 ++
          (le16 32 ++ (le32 BI_BITFIELDS ++ (le32 im.nBytes ++ tail))))))
        = (le32 sz ++ le32 im.width ++ le32 im.height ++ le16 1) ++ (le16 32 ++
          (le32 BI_BITFIELDS ++ (le32 im.nBytes ++ tail)))
      from by simp [List.append_assoc],
      readLE16_append _ _ _ 14 (by
        simp [le32_length, le16_length, List.length_append])]
  · rw [show le32 sz ++ (le32 im.width ++ (le32 im.height ++ (le16 1 ++
          (le16 32 ++ (le32 BI_BITFIELDS ++ (le32 im.nBytes ++ tail))))))
        = (le32 sz ++ le32 im.width ++ le32 im.height ++ le16 1 ++ le16 32)
          ++ (le32 BI_BITFIELDS ++ (le32 im.nBytes ++ tail))
      from by simp [List.append_assoc],
      readLE32_append _ _ _ 16 (by
        simp [le32_length, le16_length, List.length_append])]
    decide
  · rw [show le32 sz ++ (le32 im.width ++ (le32 im.height ++ (le16 1 ++
          (le16 32 ++ (le32 BI_BITFIELDS ++ (le32 im.nBytes ++ tail))))))
        = (le32 sz ++ le32 im.width ++ le32 im.height ++ le16 1 ++ le16 32
            ++ le32 BI_BITFIELDS) ++ (le32 im.nBytes ++ tail)
      from by simp [List.append_assoc],
      readLE32_append _ _ _ 20 (by
        simp [le32_length, le16_length, List.length_append])]
    exact Nat.mod_eq_of_lt hb

/-- C8: for each of the three DIB variants, parsing the header back out of
the encoded stream reproduces the buffer's width and height, a bit count of
32, a planes count of 1, the bit-fields compression mode, and an image byte
size equal to `byteSize()` (`nBytes`), for all dimensions representable in
the 32-bit header fields. -/
theorem C8_round_trip (im : Image)
    (hw : im.fWidth < 4294967296) (hh : im.fHeight < 4294967296)
    (hb : im.nBytes < 4294967296) :
    (readLE32 (makeOldDib im) 4 = im.width ∧
     readLE32 (makeOldDib im) 8 = im.height ∧
     readLE16 (makeOldDib im) 12 = 1 ∧
     readLE16 (makeOldDib im) 14 = 32 ∧
     readLE32 (makeOldDib im) 16 = BI_BITFIELDS ∧
     readLE32 (makeOldDib im) 20 = im.nBytes) ∧
    (∀ isLong,
     readLE32 (makeNewDib im isLong) 4 = im.width ∧
     readLE32 (makeNewDib im isLong) 8 = im.height ∧
     readLE16 (makeNewDib im isLong) 12 = 1 ∧
     readLE16 (makeNewDib im isLong) 14 = 32 ∧
     readLE32 (makeNewDib im isLong) 16 = BI_BITFIELDS ∧
     readLE32 (makeNewDib im isLong) 20 = im.nBytes) := by
  constructor
  · exact commonFields_read 40 im
      (le32 0 ++ (le32 0 ++ (le32 0 ++ (le32 0 ++
        (writeBitPalette ++ writeImageData im))))) _
      (by simp [makeOldDib, oldDibHeader, List.append_assoc]) hw hh hb
  · intro isLong
    exact commonFields_read 124 im
      (le32 0 ++ (le32 0 ++ (le32 0 ++ (le32 0 ++ (le32 Rgba.R_MASK ++
        (le32 Rgba.G_MASK ++ (le32 Rgba.B_MASK ++ (le32 Rgba.A_MASK ++
        (le32 LCS_sRGB ++ (List.replicate 36 0 ++ (le32 0 ++ (le32 0 ++
        (le32 0 ++ (le32 LCS_GM_IMAGES ++ (le32 0 ++ (le32 0 ++ (le32 0 ++
        ((if isLong = LongDib.YES then writeBitPalette else [])
          ++ writeImageData im)))))))))))))))))) _
      (by simp [makeNewDib, newDibHeader, List.append_assoc]) hw hh hb

theorem C8_round_trip_witness :
    ((makeImage SEMI_PINK).fWidth < 4294967296 ∧
     (makeImage SEMI_PINK).fHeight < 4294967296 ∧
     (makeImage SEMI_PINK).nBytes < 4294967296) ∧
    ((readLE32 (makeOldDib (makeImage SEMI_PINK)) 4
        = (makeImage SEMI_PINK).width ∧
      readLE32 (makeOldDib (makeImage SEMI_PINK)) 8
        = (makeImage SEMI_PINK).height ∧
      readLE16 (makeOldDib (makeImage SEMI_PINK)) 12 = 1 ∧
      readLE16 (makeOldDib (makeImage SEMI_PINK)) 14 = 32 ∧
      readLE32 (makeOldDib (makeImage SEMI_PINK)) 16 = BI_BITFIELDS ∧
      readLE32 (makeOldDib (makeImage SEMI_PINK)) 20
        = (makeImage SEMI_PINK).nBytes) ∧
     (∀ isLong,
      readLE32 (makeNewDib (makeImage SEMI_PINK) isLong) 4
        = (makeImage SEMI_PINK).width ∧
      readLE32 (makeNewDib (makeImage SEMI_PINK) isLong) 8
        = (makeImage SEMI_PINK).height ∧
      readLE16 (makeNewDib (makeImage SEMI_PINK) isLong) 12 = 1 ∧
      readLE16 (makeNewDib (makeImage SEMI_PINK) isLong) 14 = 32 ∧
      readLE32 (makeNewDib (makeImage SEMI_PINK) isLong) 16 = BI_BITFIELDS ∧
      readLE32 (makeNewDib (makeImage SEMI_PINK) isLong) 20
        = (makeImage SEMI_PINK).nBytes)) :=
  ⟨⟨by decide, by decide, by decide⟩,
    C8_round_trip (makeImage SEMI_PINK) (by decide) (by decide) (by decide)⟩

/-- C9: for every image the short and long V5 streams begin with
byte-identical 124-byte headers, and the long stream is exactly the short
stream with the 12-byte R/G/B mask table inserted between header and pixel
data. -/
theorem C9_headers_identical (im : Image) :
    ((makeNewDib im LongDib.NO).take 124
      = (makeNewDib im LongDib.YES).take 124) ∧
    (makeNewDib im LongDib.YES
      = (makeNewDib im LongDib.NO).take 124 ++ writeBitPalette
        ++ (makeNewDib im LongDib.NO).drop 124) ∧
    writeBitPalette.length = 12 := by
  have hNO : makeNewDib im LongDib.NO
      = newDibHeader im ++ writeImageData im := by
    simp [makeNewDib]
  have hYES : makeNewDib im LongDib.YES
      = (newDibHeader im ++ writeBitPalette) ++ writeImageData im := by
    simp [makeNewDib, List.append_assoc]
  have t1 : (makeNewDib im LongDib.NO).take 124 = newDibHeader im := by
    rw [hNO]
    exact List.take_left' (newDibHeader_length im)
  have t2 : (makeNewDib im LongDib.YES).take 124 = newDibHeader im := by
    rw [hYES, List.append_assoc]
    exact List.take_left' (newDibHeader_length im)
  have d1 : (makeNewDib im LongDib.NO).drop 124 = writeImageData im := by
    rw [hNO]
    exact List.drop_left' (newDibHeader_length im)
  refine ⟨by rw [t1, t2], ?_, rfl⟩
  rw [t1, d1, hYES]

theorem stageStep_cleared (evs : List ClipEvent) (op : StageOp) :
    stageStep { needClear := false, events := evs } op
      = { needClear := false, events := evs ++ [stageEvent op] } := by
  cases op <;>
    simp [stageStep, Clipboard.copyRaw, Clipboard.copyBitmap,
      Clipboard.clearIf, stageEvent]

theorem foldl_cleared (ops : List StageOp) (evs : List ClipEvent) :
    ops.foldl stageStep { needClear := false, events := evs }
      = { needClear := false, events := evs ++ ops.map stageEvent } := by
  induction ops generalizing evs with
  | nil => simp
  | cons op ops ih =>
    rw [List.foldl_cons, stageStep_cleared, ih]
    simp

theorem stageEvent_ne_empty (op : StageOp) : stageEvent op ≠ ClipEvent.empty := by
  cases op <;> simp [stageEvent]

/-- C10: in one open session the clear happens at most once — the first
staging call emits the single `EmptyClipboard`, every later call only
appends its `SetClipboardData`, so representations staged earlier in the
session are never erased. -/
theorem C10_clear_once (ops : List StageOp) :
    ((runSession ops).events = match ops with
      | [] => []
      | _ :: _ => ClipEvent.empty :: ops.map stageEvent) ∧
    (runSession ops).events.count ClipEvent.empty ≤ 1 := by
  cases ops with
  | nil => exact ⟨rfl, by simp [runSession]⟩
  | cons op ops =>
    have hfirst : stageStep { needClear := true, events := [] } op
        = { needClear := false,
            events := [ClipEvent.empty, stageEvent op] } := by
      cases op <;>
        simp [stageStep, Clipboard.copyRaw, Clipboard.copyBitmap,
          Clipboard.clearIf, stageEvent]
    have hrun : (runSession (op :: ops)).events
        = ClipEvent.empty :: (op :: ops).map stageEvent := by
      unfold runSession
      rw [List.foldl_cons, hfirst, foldl_cleared]
      simp
    refine ⟨hrun, ?_⟩
    rw [hrun]
    have hzero : ((op :: ops).map stageEvent).count ClipEvent.empty = 0 := by
      rw [List.count_eq_zero]
      intro hmem
      obtain ⟨op', _, heq⟩ := List.mem_map.mp hmem
      exact stageEvent_ne_empty op' heq
    rw [List.count_cons, hzero]
    simp


end ClipboardDemo
